import Mathlib

/-!
Shallow embedding of the fps-shooter aim-trainer core (src/target.py and
src/camera.py).  Python floats are modelled as exact rationals for the
bookkeeping logic; camera movement uses real trigonometry.  Readings of
`time.time()` and the random spawn-position sample are passed in
explicitly as `now` and `pos` arguments.
-/

namespace FPS

/-! ## Vectors -/

/-- Three-component vector over the rationals, standing in for the
`np.array [x, y, z]` values used by `src/target.py`. -/
structure Vec3 where
  x : ℚ
  y : ℚ
  z : ℚ
deriving DecidableEq

/-- Componentwise subtraction, `ray_origin - self.position`. -/
def Vec3.sub (u v : Vec3) : Vec3 :=
  ⟨u.x - v.x, u.y - v.y, u.z - v.z⟩

/-- Dot product, `np.dot`. -/
def Vec3.dot (u v : Vec3) : ℚ :=
  u.x * v.x + u.y * v.y + u.z * v.z

/-! ## Target (src/target.py, class Target) -/

/-- State of one target ball.  The presentational `color` fields of the
source are omitted; they are never read by the logic. -/
structure Target where
  position : Vec3
  radius : ℚ
  lifetime : ℚ
  spawn_time : ℚ
  is_active : Bool
  is_hit : Bool
deriving DecidableEq

/-- Constructor `Target.__init__`: the source samples `time.time()` for
`spawn_time`; here the clock reading is the explicit argument `now`. -/
def Target.init (position : Vec3) (radius lifetime now : ℚ) : Target :=
  { position := position, radius := radius, lifetime := lifetime,
    spawn_time := now, is_active := true, is_hit := false }

/-- Method `Target.update(delta_time)`.  The source ignores `delta_time` and
reads `time.time()`; that clock reading is the argument `now`.  Returns
the boolean result together with the (possibly deactivated) target. -/
def Target.update (t : Target) (now : ℚ) : Bool × Target :=
  if !t.is_active then (false, t)
  else if t.lifetime ≤ now - t.spawn_time then (false, { t with is_active := false })
  else (true, t)

/-- Quadratic coefficient `a = np.dot(ray_direction, ray_direction)`. -/
def rayA (d : Vec3) : ℚ := d.dot d

/-- Quadratic coefficient `b = 2.0 * np.dot(oc, ray_direction)` with
`oc = ray_origin - position`. -/
def rayB (center o d : Vec3) : ℚ := 2 * (o.sub center).dot d

/-- Quadratic coefficient `c = np.dot(oc, oc) - radius * radius`. -/
def rayC (center : Vec3) (radius : ℚ) (o : Vec3) : ℚ :=
  (o.sub center).dot (o.sub center) - radius * radius

/-- Discriminant `b * b - 4 * a * c`. -/
def rayDisc (center : Vec3) (radius : ℚ) (o d : Vec3) : ℚ :=
  rayB center o d * rayB center o d - 4 * rayA d * rayC center radius o

/-- Method `Target.check_hit(ray_origin, ray_direction)`.  The source takes the
hit branch when `discriminant > 0` and the near root
`t = (-b - sqrt(discriminant)) / (2 * a)` satisfies `t > 0`.  Over exact
arithmetic that pair of tests is equivalent to the square-root-free
condition `0 < disc ∧ b < 0 ∧ disc < b ^ 2` used below; the theorem
`check_hit_iff_near_root` proves the equivalence against the real-valued
root formula.  Returns the boolean result with the updated target. -/
def Target.check_hit (t : Target) (o d : Vec3) : Bool × Target :=
  if !t.is_active then (false, t)
  else if 0 < rayDisc t.position t.radius o d ∧
          rayB t.position o d < 0 ∧
          rayDisc t.position t.radius o d < rayB t.position o d ^ 2 then
    (true, { t with is_hit := true, is_active := false })
  else (false, t)

/-! ## TargetManager (src/target.py, class TargetManager) -/

/-- State of the manager: the live-target list plus configuration and the
hit/miss statistics. -/
structure TargetManager where
  targets : List Target
  max_targets : ℕ
  spawn_interval : ℚ
  last_spawn_time : ℚ
  target_lifetime : ℚ
  target_radius : ℚ
  spawn_min : Vec3
  spawn_max : Vec3
  hits : ℕ
  misses : ℕ
  total_spawned : ℕ
deriving DecidableEq

/-- Constructor `TargetManager.__init__` with the source's configuration constants
(`0.4 = 2/5`, `2.5 = 5/2`). -/
def TargetManager.init : TargetManager :=
  { targets := [], max_targets := 3, spawn_interval := 1, last_spawn_time := 0,
    target_lifetime := 5 / 2, target_radius := 2 / 5,
    spawn_min := ⟨-8, 1, -15⟩, spawn_max := ⟨8, 5, -5⟩,
    hits := 0, misses := 0, total_spawned := 0 }

/-- Method `TargetManager.spawn_target`: the `random.uniform` position sample is
the explicit argument `pos`, and the `time.time()` reading is `now`. -/
def TargetManager.spawn_target (m : TargetManager) (pos : Vec3) (now : ℚ) : TargetManager :=
  { m with
    targets := m.targets ++ [Target.init pos m.target_radius m.target_lifetime now],
    total_spawned := m.total_spawned + 1,
    last_spawn_time := now }

/-- Method `TargetManager.update(delta_time)`: first count still-listed inactive
unhit targets into `misses`, then keep exactly the targets whose
`update` returns true (in order), then possibly spawn one new target.
`now` is the `time.time()` reading, `pos` the random sample used if a
spawn happens. -/
def TargetManager.update (m : TargetManager) (now : ℚ) (pos : Vec3) : TargetManager :=
  let expired := m.targets.filter (fun t => !t.is_active && !t.is_hit)
  let targets2 := m.targets.filterMap (fun t =>
    let r := t.update now
    if r.1 then some r.2 else none)
  let m2 := { m with misses := m.misses + expired.length, targets := targets2 }
  if targets2.length < m.max_targets ∧ m.spawn_interval ≤ now - m.last_spawn_time then
    m2.spawn_target pos now
  else m2

/-- Loop body of `TargetManager.check_shot`: walk the list, stop at the
first target whose `check_hit` reports a hit, keeping every visited
target's (possibly updated) state in place. -/
def check_shot_list (o d : Vec3) : List Target → Bool × List Target
  | [] => (false, [])
  | t :: ts =>
    let r := t.check_hit o d
    if r.1 then (true, r.2 :: ts)
    else
      let rest := check_shot_list o d ts
      (rest.1, r.2 :: rest.2)

/-- Method `TargetManager.check_shot(ray_origin, ray_direction)`: first hit in
list order wins and increments `hits`. -/
def TargetManager.check_shot (m : TargetManager) (o d : Vec3) : Bool × TargetManager :=
  let r := check_shot_list o d m.targets
  (r.1, { m with targets := r.2, hits := if r.1 then m.hits + 1 else m.hits })

/-- Method `TargetManager.get_targets`: the active targets, for rendering. -/
def TargetManager.get_targets (m : TargetManager) : List Target :=
  m.targets.filter (fun t => t.is_active)

/-- Method `TargetManager.get_accuracy`: percentage, with an explicit guard for
an empty denominator. -/
def TargetManager.get_accuracy (m : TargetManager) : ℚ :=
  if m.hits + m.misses = 0 then 0
  else ((m.hits : ℚ) / ((m.hits : ℚ) + (m.misses : ℚ))) * 100

/-- Method `TargetManager.reset_stats`. -/
def TargetManager.reset_stats (m : TargetManager) : TargetManager :=
  { m with hits := 0, misses := 0, total_spawned := 0 }

/-! ## Camera (src/camera.py) -/

/-- Three-component real vector for the camera position and its derived
direction vectors. -/
structure RVec3 where
  x : ℝ
  y : ℝ
  z : ℝ

/-- Camera state: yaw and pitch are kept as exact degrees. -/
structure Camera where
  position : RVec3
  yaw : ℚ
  pitch : ℚ

/-- Constant `Camera.MIN_PITCH`. -/
def MIN_PITCH : ℚ := -89

/-- Constant `Camera.MAX_PITCH`. -/
def MAX_PITCH : ℚ := 89

/-- Method `Camera._clamp_pitch`. -/
def clamp_pitch (pitch : ℚ) : ℚ :=
  max MIN_PITCH (min MAX_PITCH pitch)

/-- Constructor `Camera.__init__` (the position default is irrelevant here, the
caller passes it). -/
def Camera.init (position : RVec3) (yaw pitch : ℚ) : Camera :=
  { position := position, yaw := yaw, pitch := clamp_pitch pitch }

/-- Conversion `math.radians`. -/
noncomputable def radians (deg : ℚ) : ℝ :=
  (deg : ℝ) * Real.pi / 180

/-- Method `Camera.get_forward_vector`. -/
noncomputable def Camera.get_forward_vector (c : Camera) : RVec3 :=
  ⟨Real.sin (radians c.yaw) * Real.cos (radians c.pitch),
   Real.sin (radians c.pitch),
   -(Real.cos (radians c.yaw) * Real.cos (radians c.pitch))⟩

/-- Method `Camera.get_right_vector`. -/
noncomputable def Camera.get_right_vector (c : Camera) : RVec3 :=
  ⟨Real.cos (radians c.yaw), 0, Real.sin (radians c.yaw)⟩

/-- First wrap loop of `Camera.rotate`: `while self.yaw > 360.0:
self.yaw -= 360.0`. -/
def wrap_down (y : ℚ) : ℚ :=
  if 360 < y then wrap_down (y - 360) else y
termination_by (⌈y / 360⌉).toNat
decreasing_by
  have h1 : (1 : ℤ) < ⌈y / 360⌉ := by
    rw [Int.lt_ceil]
    push_cast
    linarith
  have h2 : ⌈(y - 360) / 360⌉ = ⌈y / 360⌉ - 1 := by
    rw [sub_div, div_self (by norm_num : (360 : ℚ) ≠ 0)]
    exact Int.ceil_sub_one _
  omega

/-- Second wrap loop of `Camera.rotate`: `while self.yaw < 0.0:
self.yaw += 360.0`. -/
def wrap_up (y : ℚ) : ℚ :=
  if y < 0 then wrap_up (y + 360) else y
termination_by (⌈-y / 360⌉).toNat
decreasing_by
  have h1 : (0 : ℤ) < ⌈-y / 360⌉ := by
    rw [Int.lt_ceil]
    push_cast
    linarith
  have h2 : ⌈-(y + 360) / 360⌉ = ⌈-y / 360⌉ - 1 := by
    rw [neg_add, ← sub_eq_add_neg, sub_div, div_self (by norm_num : (360 : ℚ) ≠ 0)]
    exact Int.ceil_sub_one _
  omega

/-- Method `Camera.rotate`: add the deltas, wrap yaw with the two correction
loops, clamp pitch. -/
def Camera.rotate (c : Camera) (yaw_delta pitch_delta : ℚ) : Camera :=
  { c with
    yaw := wrap_up (wrap_down (c.yaw + yaw_delta)),
    pitch := clamp_pitch (c.pitch + pitch_delta) }

/-- Method `Camera.move_forward`: XZ-plane movement only. -/
noncomputable def Camera.move_forward (c : Camera) (distance : ℝ) : Camera :=
  { c with
    position := ⟨c.position.x + Real.sin (radians c.yaw) * distance,
                 c.position.y,
                 c.position.z - Real.cos (radians c.yaw) * distance⟩ }

/-- Method `Camera.move_right`: translate along the right vector. -/
noncomputable def Camera.move_right (c : Camera) (distance : ℝ) : Camera :=
  { c with
    position := ⟨c.position.x + c.get_right_vector.x * distance,
                 c.position.y + c.get_right_vector.y * distance,
                 c.position.z + c.get_right_vector.z * distance⟩ }

/-- Method `Camera.move_up`: world-Y translation. -/
def Camera.move_up (c : Camera) (distance : ℝ) : Camera :=
  { c with
    position := ⟨c.position.x, c.position.y + distance, c.position.z⟩ }

/-- Method `Camera.set_rotation`: sets yaw verbatim, clamps pitch, no wrap. -/
def Camera.set_rotation (c : Camera) (yaw pitch : ℚ) : Camera :=
  { c with yaw := yaw, pitch := clamp_pitch pitch }


/-! ## Helper lemmas -/

/-- Clamping always lands in the pitch range. -/
lemma clamp_pitch_mem (p : ℚ) : -89 ≤ clamp_pitch p ∧ clamp_pitch p ≤ 89 := by
  unfold clamp_pitch MIN_PITCH MAX_PITCH
  exact ⟨le_max_left _ _, max_le (by norm_num) (min_le_left _ _)⟩

/-- The dot product of a vector with itself is nonnegative. -/
lemma dot_self_nonneg (d : Vec3) : 0 ≤ d.dot d := by
  obtain ⟨x, y, z⟩ := d
  simp only [Vec3.dot]
  nlinarith [mul_self_nonneg x, mul_self_nonneg y, mul_self_nonneg z]

/-- Over exact arithmetic, a direction with zero self-dot-product is the
zero vector. -/
lemma dot_self_eq_zero (d : Vec3) (h : d.dot d = 0) : d = ⟨0, 0, 0⟩ := by
  obtain ⟨x, y, z⟩ := d
  simp only [Vec3.dot] at h
  have hx : x = 0 := by nlinarith [mul_self_nonneg x, mul_self_nonneg y, mul_self_nonneg z]
  have hy : y = 0 := by nlinarith [mul_self_nonneg x, mul_self_nonneg y, mul_self_nonneg z]
  have hz : z = 0 := by nlinarith [mul_self_nonneg x, mul_self_nonneg y, mul_self_nonneg z]
  simp [hx, hy, hz]

/-- A strictly positive discriminant forces a strictly positive leading
coefficient: if the direction were zero, then `b` would be `0` and the
discriminant would be `0`. -/
lemma rayA_pos_of_rayDisc_pos (center : Vec3) (radius : ℚ) (o d : Vec3)
    (h : 0 < rayDisc center radius o d) : 0 < rayA d := by
  rcases lt_or_eq_of_le (dot_self_nonneg d) with hpos | heq
  · exact hpos
  · exfalso
    have hzero : d = ⟨0, 0, 0⟩ := dot_self_eq_zero d heq.symm
    subst hzero
    simp [rayDisc, rayA, rayB, Vec3.dot] at h

/-- Core equivalence behind `Target.check_hit`: when the discriminant is
strictly positive, the source's near-root test
`(-b - sqrt disc) / (2 * a) > 0` is equivalent to the square-root-free
test `b < 0 ∧ disc < b ^ 2` used in the embedding. -/
lemma near_root_pos_iff (center : Vec3) (radius : ℚ) (o d : Vec3)
    (hd : 0 < rayDisc center radius o d) :
    (rayB center o d < 0 ∧ rayDisc center radius o d < rayB center o d ^ 2) ↔
    0 < (-(rayB center o d : ℝ) - Real.sqrt (rayDisc center radius o d : ℝ)) /
        (2 * (rayA d : ℝ)) := by
  have ha : (0 : ℚ) < rayA d := rayA_pos_of_rayDisc_pos center radius o d hd
  have haR : (0 : ℝ) < (rayA d : ℝ) := by exact_mod_cast ha
  have h2a : (0 : ℝ) < 2 * (rayA d : ℝ) := by linarith
  constructor
  · rintro ⟨hb, hlt⟩
    have hbR : ((rayB center o d : ℚ) : ℝ) < 0 := by exact_mod_cast hb
    have hnegb : (0 : ℝ) < -(rayB center o d : ℝ) := by linarith
    have hsq : Real.sqrt (rayDisc center radius o d : ℝ) < -(rayB center o d : ℝ) := by
      rw [Real.sqrt_lt' hnegb, neg_sq]
      exact_mod_cast hlt
    exact div_pos (by linarith) h2a
  · intro hpos
    have hnum : (0 : ℝ) < -(rayB center o d : ℝ) - Real.sqrt (rayDisc center radius o d : ℝ) := by
      have hstep := (lt_div_iff₀ h2a).mp hpos
      simpa using hstep
    have hsqrtnn : (0 : ℝ) ≤ Real.sqrt (rayDisc center radius o d : ℝ) := Real.sqrt_nonneg _
    have hnegb : (0 : ℝ) < -(rayB center o d : ℝ) := by linarith
    have hb : rayB center o d < 0 := by
      have hbR : ((rayB center o d : ℚ) : ℝ) < 0 := by linarith
      exact_mod_cast hbR
    have hsq : Real.sqrt (rayDisc center radius o d : ℝ) < -(rayB center o d : ℝ) := by
      linarith
    have hlt := (Real.sqrt_lt' hnegb).mp hsq
    rw [neg_sq] at hlt
    exact ⟨hb, by exact_mod_cast hlt⟩

/-- Method `Target.check_hit` ends in exactly one of two states: a miss that
leaves the target untouched, or a hit that marks it hit and inactive. -/
lemma check_hit_cases (t : Target) (o d : Vec3) :
    t.check_hit o d = (false, t) ∨
    t.check_hit o d = (true, { t with is_hit := true, is_active := false }) := by
  unfold Target.check_hit
  split
  · exact Or.inl rfl
  · split
    · exact Or.inr rfl
    · exact Or.inl rfl

/-- A miss reported by `check_hit` leaves the target unchanged. -/
lemma check_hit_snd_of_false (t : Target) (o d : Vec3)
    (h : (t.check_hit o d).1 = false) : (t.check_hit o d).2 = t := by
  rcases check_hit_cases t o d with hc | hc
  · rw [hc]
  · rw [hc] at h
    simp at h

/-- A hit reported by `check_hit` deactivates the target and marks it hit. -/
lemma check_hit_snd_of_true (t : Target) (o d : Vec3)
    (h : (t.check_hit o d).1 = true) :
    (t.check_hit o d).2 = { t with is_hit := true, is_active := false } := by
  rcases check_hit_cases t o d with hc | hc
  · rw [hc] at h
    simp at h
  · rw [hc]

/-- Walking the target list either reports no hit and returns the list
unchanged with every target missing, or splits the list around the first
target (in list order) whose `check_hit` succeeds. -/
lemma check_shot_list_spec (o d : Vec3) (ts : List Target) :
    ((check_shot_list o d ts).1 = false ∧ (check_shot_list o d ts).2 = ts ∧
      ∀ t ∈ ts, (t.check_hit o d).1 = false) ∨
    ((check_shot_list o d ts).1 = true ∧ ∃ pre t post,
      ts = pre ++ t :: post ∧
      (∀ u ∈ pre, (u.check_hit o d).1 = false) ∧
      (t.check_hit o d).1 = true ∧
      (check_shot_list o d ts).2 = pre ++ (t.check_hit o d).2 :: post) := by
  induction ts with
  | nil =>
    left
    refine ⟨rfl, rfl, ?_⟩
    intro t ht
    simp at ht
  | cons t ts ih =>
    by_cases hfst : (t.check_hit o d).1 = true
    · right
      refine ⟨by simp [check_shot_list, hfst], [], t, ts, by simp, by simp, hfst, ?_⟩
      simp [check_shot_list, hfst]
    · have hf : (t.check_hit o d).1 = false := by
        revert hfst
        cases (t.check_hit o d).1 <;> simp
      have hsnd : (t.check_hit o d).2 = t := check_hit_snd_of_false t o d hf
      rcases ih with ⟨h1, h2, h3⟩ | ⟨h1, pre, u, post, heq, hpre, hu, h2⟩
      · left
        refine ⟨by simp [check_shot_list, hf, h1], by simp [check_shot_list, hf, hsnd, h2], ?_⟩
        intro v hv
        rcases List.mem_cons.mp hv with hv | hv
        · rw [hv]
          exact hf
        · exact h3 v hv
      · right
        refine ⟨by simp [check_shot_list, hf, h1], t :: pre, u, post, by simp [heq], ?_, hu, ?_⟩
        · intro v hv
          rcases List.mem_cons.mp hv with hv | hv
          · rw [hv]
            exact hf
          · exact hpre v hv
        · simp [check_shot_list, hf, hsnd, h2]

/-- First wrap loop: the result never exceeds `360`. -/
lemma wrap_down_le_360 (y : ℚ) : wrap_down y ≤ 360 := by
  induction y using wrap_down.induct with
  | case1 y h ih =>
    rw [wrap_down, if_pos h]
    exact ih
  | case2 y h =>
    rw [wrap_down, if_neg h]
    exact le_of_not_lt h

/-- Second wrap loop: the result is nonnegative. -/
lemma wrap_up_nonneg (y : ℚ) : 0 ≤ wrap_up y := by
  induction y using wrap_up.induct with
  | case1 y h ih =>
    rw [wrap_up, if_pos h]
    exact ih
  | case2 y h =>
    rw [wrap_up, if_neg h]
    exact le_of_not_lt h

/-- Second wrap loop: an input at most `360` stays at most `360`. -/
lemma wrap_up_le_360 : ∀ y : ℚ, y ≤ 360 → wrap_up y ≤ 360 := by
  intro y
  induction y using wrap_up.induct with
  | case1 y h ih =>
    intro _
    rw [wrap_up, if_pos h]
    exact ih (by linarith)
  | case2 y h =>
    intro hy
    rw [wrap_up, if_neg h]
    exact hy


/-! ## Claim theorems -/

/-- C1: the spec requires that a target reaching its lifetime unhit is
counted into `misses` exactly once when it is removed; the code's
`TargetManager.update` scans for already-inactive unhit targets *before*
ticking, and the tick both deactivates and removes an expiring target in
the same call, so the expired target is removed while `misses` stays `0`
(the spec's end-to-end scenario expects `misses == 1`). -/
theorem update_expiry_not_counted_as_miss :
    (let t0 := Target.init ⟨0, 2, -10⟩ (2 / 5) 2 0
     let m : TargetManager :=
       { TargetManager.init with targets := [t0], spawn_interval := 100, total_spawned := 1 }
     (m.update (21 / 10) ⟨1, 2, -10⟩).targets = [] ∧
     (m.update (21 / 10) ⟨1, 2, -10⟩).misses = 0) := by
  norm_num [Target.init, TargetManager.init, TargetManager.update, TargetManager.spawn_target,
    Target.update]

/-- Development companion to the C1 finding: from any state whose listed
targets are all still active (every reachable state between frames is of
this shape), an `update` call leaves `misses` unchanged, whatever
expires during the call. -/
theorem update_misses_eq_of_all_active (m : TargetManager) (now : ℚ) (pos : Vec3)
    (h : ∀ t ∈ m.targets, t.is_active = true) :
    (m.update now pos).misses = m.misses := by
  have hnil : m.targets.filter (fun t => !t.is_active && !t.is_hit) = [] := by
    apply List.filter_eq_nil_iff.mpr
    intro t ht
    simp [h t ht]
  simp only [TargetManager.update, hnil, List.length_nil, Nat.add_zero]
  split
  · simp [TargetManager.spawn_target]
  · simp

/-- C2 (counterexample): for a ray whose origin coincides with the center
of an active sphere, the claimed contract (`discriminant ≥ 0` and some
root `t ≥ 0` implies a hit) is satisfied — the discriminant is
nonnegative and the far root is nonnegative — yet the code reports a
miss, because it tests only the near root with a strict inequality. -/
theorem check_hit_center_ray_counterexample :
    ((Target.init ⟨0, 0, 0⟩ (1 / 2) 3 0).check_hit ⟨0, 0, 0⟩ ⟨0, 0, -1⟩).1 = false ∧
    (Target.init ⟨0, 0, 0⟩ (1 / 2) 3 0).is_active = true ∧
    0 ≤ rayDisc ⟨0, 0, 0⟩ (1 / 2) ⟨0, 0, 0⟩ ⟨0, 0, -1⟩ ∧
    0 ≤ (-(rayB ⟨0, 0, 0⟩ ⟨0, 0, 0⟩ ⟨0, 0, -1⟩ : ℝ) +
          Real.sqrt (rayDisc ⟨0, 0, 0⟩ (1 / 2) ⟨0, 0, 0⟩ ⟨0, 0, -1⟩ : ℝ)) /
        (2 * (rayA ⟨0, 0, -1⟩ : ℝ)) := by
  have hb : rayB ⟨0, 0, 0⟩ ⟨0, 0, 0⟩ ⟨0, 0, -1⟩ = 0 := by
    norm_num [rayB, Vec3.sub, Vec3.dot]
  have ha : rayA ⟨0, 0, -1⟩ = 1 := by
    norm_num [rayA, Vec3.dot]
  have hd : rayDisc ⟨0, 0, 0⟩ (1 / 2) ⟨0, 0, 0⟩ ⟨0, 0, -1⟩ = 1 := by
    norm_num [rayDisc, rayA, rayB, rayC, Vec3.sub, Vec3.dot]
  refine ⟨?_, rfl, ?_, ?_⟩
  · norm_num [Target.init, Target.check_hit, rayDisc, rayA, rayB, rayC, Vec3.sub, Vec3.dot]
  · rw [hd]
    norm_num
  · rw [hb, ha, hd]
    push_cast
    rw [Real.sqrt_one]
    norm_num

/-- C2 (amended): `check_hit` reports a hit exactly when the target is
active, the discriminant is strictly positive, and the near root
`(-b - sqrt disc) / (2 a)` is strictly positive.  In particular a
tangent ray (`disc = 0`) misses, and a ray starting at the sphere center
misses because its near root is negative. -/
theorem check_hit_iff_near_root (t : Target) (o d : Vec3) :
    (t.check_hit o d).1 = true ↔
      (t.is_active = true ∧ 0 < rayDisc t.position t.radius o d ∧
       0 < (-(rayB t.position o d : ℝ) - Real.sqrt (rayDisc t.position t.radius o d : ℝ)) /
           (2 * (rayA d : ℝ))) := by
  have key : (t.check_hit o d).1 = true ↔
      (t.is_active = true ∧ (0 < rayDisc t.position t.radius o d ∧
        rayB t.position o d < 0 ∧ rayDisc t.position t.radius o d < rayB t.position o d ^ 2)) := by
    unfold Target.check_hit
    split
    next hna =>
      have hf : t.is_active = false := by
        revert hna
        cases t.is_active <;> simp
      simp [hf]
    next hna =>
      have ht : t.is_active = true := by
        revert hna
        cases t.is_active <;> simp
      split
      next hc => simp [ht, hc]
      next hc => simp [ht, hc]
  rw [key]
  constructor
  · rintro ⟨h1, h2, h3, h4⟩
    exact ⟨h1, h2, (near_root_pos_iff t.position t.radius o d h2).mp ⟨h3, h4⟩⟩
  · rintro ⟨h1, h2, h3⟩
    exact ⟨h1, h2, ((near_root_pos_iff t.position t.radius o d h2).mpr h3).1,
      ((near_root_pos_iff t.position t.radius o d h2).mpr h3).2⟩


/-- C3: the pitch field lies in `[-89, 89]` after construction, after
every `rotate` call, and after every `set_rotation` call, for all
inputs. -/
theorem pitch_always_clamped :
    (∀ (pos : RVec3) (y p : ℚ),
      -89 ≤ (Camera.init pos y p).pitch ∧ (Camera.init pos y p).pitch ≤ 89) ∧
    (∀ (c : Camera) (dy dp : ℚ),
      -89 ≤ (c.rotate dy dp).pitch ∧ (c.rotate dy dp).pitch ≤ 89) ∧
    (∀ (c : Camera) (y p : ℚ),
      -89 ≤ (c.set_rotation y p).pitch ∧ (c.set_rotation y p).pitch ≤ 89) := by
  refine ⟨fun pos y p => ?_, fun c dy dp => ?_, fun c y p => ?_⟩
  · exact clamp_pitch_mem p
  · exact clamp_pitch_mem (c.pitch + dp)
  · exact clamp_pitch_mem p

/-- C4: an `update` call spawns at most one target (`total_spawned` grows
by at most one), and when the live count respects the bound before the
call it still does after the call. -/
theorem update_spawn_bounds (m : TargetManager) (now : ℚ) (pos : Vec3)
    (h : m.targets.length ≤ m.max_targets) :
    (m.update now pos).targets.length ≤ m.max_targets ∧
    (m.update now pos).total_spawned ≤ m.total_spawned + 1 := by
  have hlen : (m.targets.filterMap (fun t =>
      let r := t.update now
      if r.1 then some r.2 else none)).length ≤ m.targets.length :=
    List.length_filterMap_le _ _
  simp only [TargetManager.update]
  split
  next hc =>
    constructor
    · simp only [TargetManager.spawn_target, List.length_append, List.length_cons,
        List.length_nil]
      omega
    · simp [TargetManager.spawn_target]
  next hc =>
    exact ⟨le_trans hlen h, Nat.le_succ _⟩

/-- Witness for C4 at the initial manager state. -/
theorem update_spawn_bounds_witness :
    (TargetManager.init.update 5 ⟨0, 2, -10⟩).targets.length ≤ TargetManager.init.max_targets ∧
    (TargetManager.init.update 5 ⟨0, 2, -10⟩).total_spawned ≤
      TargetManager.init.total_spawned + 1 :=
  update_spawn_bounds TargetManager.init 5 ⟨0, 2, -10⟩ (by norm_num [TargetManager.init])

/-- C5: `check_shot` never touches `misses`; if no target is hit it
changes nothing at all, and if some target is hit then `hits` grows by
exactly one, the winner is the first target in list (spawn) order whose
`check_hit` succeeds, it is deactivated in place, and the live set
(`get_targets`) loses exactly that target. -/
theorem check_shot_first_hit (m : TargetManager) (o d : Vec3) :
    (m.check_shot o d).2.misses = m.misses ∧
    (((m.check_shot o d).1 = false ∧ (m.check_shot o d).2 = m) ∨
     ((m.check_shot o d).1 = true ∧
      (m.check_shot o d).2.hits = m.hits + 1 ∧
      ∃ pre t post,
        m.targets = pre ++ t :: post ∧
        (∀ u ∈ pre, (u.check_hit o d).1 = false) ∧
        (t.check_hit o d).1 = true ∧
        (m.check_shot o d).2.targets = pre ++ (t.check_hit o d).2 :: post ∧
        (t.check_hit o d).2.is_active = false ∧
        (m.check_shot o d).2.get_targets = (pre ++ post).filter (fun u => u.is_active))) := by
  refine ⟨rfl, ?_⟩
  rcases check_shot_list_spec o d m.targets with ⟨h1, h2, _⟩ | ⟨h1, pre, t, post, heq, hpre, hhit, h2⟩
  · left
    constructor
    · simpa [TargetManager.check_shot] using h1
    · simp [TargetManager.check_shot, h1, h2]
  · right
    have hsnd := check_hit_snd_of_true t o d hhit
    have hina : (t.check_hit o d).2.is_active = false := by
      rw [hsnd]
    refine ⟨by simpa [TargetManager.check_shot] using h1, ?_, pre, t, post, heq, hpre, hhit, ?_, hina, ?_⟩
    · simp [TargetManager.check_shot, h1]
    · simpa [TargetManager.check_shot] using h2
    · simp only [TargetManager.get_targets, TargetManager.check_shot, h1, h2,
        List.filter_append, List.filter_cons, hina]
      simp

/-- Witness applying C5 to a concrete one-target scenario. -/
theorem check_shot_first_hit_witness :
    (let m : TargetManager :=
      { TargetManager.init with targets := [Target.init ⟨0, 0, -10⟩ (1 / 2) 3 0] }
     (m.check_shot ⟨0, 0, 0⟩ ⟨0, 0, -1⟩).2.misses = m.misses ∧
     (((m.check_shot ⟨0, 0, 0⟩ ⟨0, 0, -1⟩).1 = false ∧
       (m.check_shot ⟨0, 0, 0⟩ ⟨0, 0, -1⟩).2 = m) ∨
      ((m.check_shot ⟨0, 0, 0⟩ ⟨0, 0, -1⟩).1 = true ∧
       (m.check_shot ⟨0, 0, 0⟩ ⟨0, 0, -1⟩).2.hits = m.hits + 1 ∧
       ∃ pre t post,
         m.targets = pre ++ t :: post ∧
         (∀ u ∈ pre, (u.check_hit ⟨0, 0, 0⟩ ⟨0, 0, -1⟩).1 = false) ∧
         (t.check_hit ⟨0, 0, 0⟩ ⟨0, 0, -1⟩).1 = true ∧
         (m.check_shot ⟨0, 0, 0⟩ ⟨0, 0, -1⟩).2.targets =
           pre ++ (t.check_hit ⟨0, 0, 0⟩ ⟨0, 0, -1⟩).2 :: post ∧
         (t.check_hit ⟨0, 0, 0⟩ ⟨0, 0, -1⟩).2.is_active = false ∧
         (m.check_shot ⟨0, 0, 0⟩ ⟨0, 0, -1⟩).2.get_targets =
           ((pre ++ post).filter (fun u => u.is_active))))) :=
  check_shot_first_hit _ ⟨0, 0, 0⟩ ⟨0, 0, -1⟩

/-- C6: accuracy is `0` whenever `hits + misses = 0`; otherwise it equals
`hits / (hits + misses) * 100` (stated multiplicatively); with 3 hits and
1 miss it is `75`. -/
theorem get_accuracy_spec :
    (∀ m : TargetManager, m.hits + m.misses = 0 → m.get_accuracy = 0) ∧
    (∀ m : TargetManager, m.hits + m.misses ≠ 0 →
      m.get_accuracy * ((m.hits : ℚ) + (m.misses : ℚ)) = (m.hits : ℚ) * 100) ∧
    (∀ m : TargetManager, m.hits = 3 → m.misses = 1 → m.get_accuracy = 75) := by
  refine ⟨?_, ?_, ?_⟩
  · intro m h
    simp [TargetManager.get_accuracy, h]
  · intro m h
    have hpos : 0 < m.hits + m.misses := Nat.pos_of_ne_zero h
    have hne : ((m.hits : ℚ) + (m.misses : ℚ)) ≠ 0 := by
      have hposq : (0 : ℚ) < (m.hits : ℚ) + (m.misses : ℚ) := by exact_mod_cast hpos
      exact ne_of_gt hposq
    simp only [TargetManager.get_accuracy, h, if_false]
    field_simp
  · intro m h3 h1
    norm_num [TargetManager.get_accuracy, h3, h1]

/-- Witness for C6 with 3 hits and 1 miss. -/
theorem get_accuracy_spec_witness :
    ({ TargetManager.init with hits := 3, misses := 1 } : TargetManager).get_accuracy = 75 :=
  get_accuracy_spec.2.2 _ rfl rfl

/-- C7: a fresh target with lifetime `L` spawned at `T` is still active
when ticked at `T + L - ε` (and unchanged), becomes inactive exactly at
the tick at `T + L + ε`, and every later tick is a no-op returning
inactive. -/
theorem target_expiry_transition (pos : Vec3) (r L T e : ℚ) (he : 0 < e) :
    ((Target.init pos r L T).update (T + L - e)).1 = true ∧
    ((Target.init pos r L T).update (T + L - e)).2 = Target.init pos r L T ∧
    ((Target.init pos r L T).update (T + L + e)).1 = false ∧
    ((Target.init pos r L T).update (T + L + e)).2.is_active = false ∧
    ∀ now2 : ℚ, ((Target.init pos r L T).update (T + L + e)).2.update now2 =
      (false, ((Target.init pos r L T).update (T + L + e)).2) := by
  have h1 : ¬ (L ≤ T + L - e - T) := by
    intro hc
    linarith
  have h2 : L ≤ T + L + e - T := by linarith
  have hearly : (Target.init pos r L T).update (T + L - e) = (true, Target.init pos r L T) := by
    simp [Target.update, Target.init, h1]
  have hlate : (Target.init pos r L T).update (T + L + e) =
      (false, { Target.init pos r L T with is_active := false }) := by
    simp [Target.update, Target.init, h2]
  refine ⟨by rw [hearly], by rw [hearly], by rw [hlate], by rw [hlate], ?_⟩
  intro now2
  rw [hlate]
  simp [Target.update]

/-- Witness for C7 with `T = 0`, `L = 2`, `ε = 1`. -/
theorem target_expiry_transition_witness :
    ((Target.init ⟨0, 0, 0⟩ 1 2 0).update (0 + 2 - 1)).1 = true ∧
    ((Target.init ⟨0, 0, 0⟩ 1 2 0).update (0 + 2 - 1)).2 = Target.init ⟨0, 0, 0⟩ 1 2 0 ∧
    ((Target.init ⟨0, 0, 0⟩ 1 2 0).update (0 + 2 + 1)).1 = false ∧
    ((Target.init ⟨0, 0, 0⟩ 1 2 0).update (0 + 2 + 1)).2.is_active = false ∧
    ∀ now2 : ℚ, ((Target.init ⟨0, 0, 0⟩ 1 2 0).update (0 + 2 + 1)).2.update now2 =
      (false, ((Target.init ⟨0, 0, 0⟩ 1 2 0).update (0 + 2 + 1)).2) :=
  target_expiry_transition ⟨0, 0, 0⟩ 1 2 0 1 (by norm_num)

/-- C8: forward and strafe movement never change the camera's vertical
position, and the right vector always has a zero vertical component. -/
theorem movement_keeps_height :
    (∀ (c : Camera) (dist : ℝ), (c.move_forward dist).position.y = c.position.y) ∧
    (∀ (c : Camera) (dist : ℝ), (c.move_right dist).position.y = c.position.y) ∧
    (∀ c : Camera, c.get_right_vector.y = 0) := by
  refine ⟨fun c dist => rfl, fun c dist => ?_, fun c => rfl⟩
  simp [Camera.move_right, Camera.get_right_vector]

/-- C9: feeding the zero direction vector into the intersection math
yields a discriminant of exactly `0`, so the positive-discriminant
branch (and its division by `2 a`) is not taken and `check_hit` reports
a miss leaving the target unchanged. -/
theorem check_hit_zero_direction (t : Target) (o : Vec3) :
    rayDisc t.position t.radius o ⟨0, 0, 0⟩ = 0 ∧
    t.check_hit o ⟨0, 0, 0⟩ = (false, t) := by
  have hdisc : rayDisc t.position t.radius o ⟨0, 0, 0⟩ = 0 := by
    simp [rayDisc, rayA, rayB, Vec3.dot]
  refine ⟨hdisc, ?_⟩
  unfold Target.check_hit
  split
  · rfl
  · rw [if_neg]
    rintro ⟨hpos, -, -⟩
    rw [hdisc] at hpos
    exact lt_irrefl 0 hpos

/-- C10: after every `rotate` call the yaw lies in the closed interval
`[0, 360]`; the endpoint `360` is reachable because the wrap loops stop
at exactly `360`; and neither `set_rotation` nor the constructor wraps
yaw at all. -/
theorem rotate_yaw_wrapped :
    (∀ (c : Camera) (dy dp : ℚ),
      0 ≤ (c.rotate dy dp).yaw ∧ (c.rotate dy dp).yaw ≤ 360) ∧
    ((Camera.init ⟨0, 0, 0⟩ 300 0).rotate 60 0).yaw = 360 ∧
    (∀ (c : Camera) (y p : ℚ), (c.set_rotation y p).yaw = y) ∧
    (∀ (pos : RVec3) (y p : ℚ), (Camera.init pos y p).yaw = y) := by
  refine ⟨fun c dy dp => ?_, ?_, fun c y p => rfl, fun pos y p => rfl⟩
  · constructor
    · exact wrap_up_nonneg _
    · exact wrap_up_le_360 _ (wrap_down_le_360 _)
  · have h300 : (300 : ℚ) + 60 = 360 := by norm_num
    have hdown : wrap_down (360 : ℚ) = 360 := by
      rw [wrap_down]
      norm_num
    have hup : wrap_up (360 : ℚ) = 360 := by
      rw [wrap_up]
      norm_num
    simp [Camera.rotate, Camera.init, h300, hdown, hup]

end FPS
